import Mathlib

/-!
Verification of the raztracer core against its specification.

Shallow embedding of the Go sources:
  src/arch/amd64.go          architecture descriptor (trap bytes, register indices,
                             FixFrameContext)
  src/common/breakpoint.go   software breakpoint engine
  src/common/regs.go         ptrace process wrapper (Wait, GetRegs, peek/poke)
  src/tracer.go              tracer (SetBreakpoint, WaitForEvent classification)
  src/loclist.go             location lists (FindEntry)
  src/regs.go + unnamed/part_006   Location.Read / Location.String
  src/unnamed/part_005       DWARF expression evaluator (ExecuteStackProgram)
  src/data/reading.go        stack iterator rule evaluation (executeFrameRegRule)

Machine integers are modelled as Nat with explicit reductions modulo 2^64 where
Go uint64/uintptr arithmetic wraps, and as Int with an explicit int64 wrap where
Go int64 arithmetic wraps.  Target memory is a byte function together with a
mapped predicate; ptrace peek/poke are all-or-nothing on the mapped bytes.
-/

namespace Raztracer

/-! ## Architecture constants (src/arch/amd64.go, src/unnamed/part_004) -/

/-- Pointer size of the modelled architecture (x86-64). -/
def SizeofPtr : Nat := 8

/-- int3 trap instruction for x86-64 (src/arch/amd64.go). -/
def TrapInstruction : List Nat := [0xcc]

/-- Length of the trap instruction (src/common/breakpoint.go). -/
def trapInstructionSize : Nat := TrapInstruction.length

/-- Zero-filled byte slice of trap-instruction length (src/common/breakpoint.go
`emptyInstr = make([]byte, len(arch.TrapInstruction))`). -/
def emptyInstr : List Nat := List.replicate TrapInstruction.length 0

/-- Index of rip in the kernel register block (src/arch/amd64.go). -/
def PCRegNum : Nat := 16

/-- Index of rsp in the kernel register block (src/arch/amd64.go). -/
def SPRegNum : Nat := 19

/-- Index of rbp in the kernel register block (src/arch/amd64.go). -/
def FPRegNum : Nat := 4

/-! ## Machine arithmetic helpers -/

/-- Go uintptr subtraction `a - b`, wrapping modulo 2^64. -/
def usub64 (a b : Nat) : Nat := (a + (2 ^ 64 - b % 2 ^ 64)) % 2 ^ 64

/-- Reinterpret a uint64 bit pattern as a signed int64 (Go `int64(x)`). -/
def i64ofUInt64 (n : Nat) : Int :=
  if n % 2 ^ 64 < 2 ^ 63 then (n % 2 ^ 64 : Int) else (n % 2 ^ 64 : Int) - 2 ^ 64

/-- Reinterpret a signed integer as a uint64 bit pattern (Go `uint64(x)` /
`uintptr(x)` on an int64 value). -/
def toUInt64 (n : Int) : Nat := (n % (2 ^ 64 : Int)).toNat

/-- Wrap an integer to signed int64 range (Go int64 overflow semantics). -/
def wrap64 (n : Int) : Int := i64ofUInt64 (toUInt64 n)

/-- Assemble a uint64 from 8 little-endian bytes; returns 0 when the slice is
too short (src/unnamed/part_004 `ReadAddress`). -/
def ReadAddress (data : List Nat) : Nat :=
  if data.length < SizeofPtr then 0
  else
    (List.range SizeofPtr).foldr (fun i acc => acc * 256 + data.getD i 0 % 256) 0

/-- Render a uint64 value as 8 little-endian bytes (Go
`ByteOrder.PutUint64`). -/
def putUint64LE (v : Nat) : List Nat :=
  (List.range SizeofPtr).map (fun i => v / 256 ^ i % 256)

/-! ## Target memory model

Ptrace peek/poke (src/common/regs.go `PeekData` / `PokeData`) are modelled over
a byte-addressed memory with a mapped predicate; an access touching an unmapped
byte fails and a failed poke writes nothing. -/

/-- Traced-process memory: a byte at every address plus which addresses are
accessible to ptrace. -/
structure ProcMem where
  mem : Nat → Nat
  mapped : Nat → Bool

/-- Read `len` bytes at `addr` (src/common/regs.go `Process.PeekData`). -/
def peekData (st : ProcMem) (addr len : Nat) : Option (List Nat) :=
  if (List.range len).all (fun i => st.mapped (addr + i)) then
    some ((List.range len).map (fun i => st.mem (addr + i)))
  else none

/-- Write `data` at `addr` (src/common/regs.go `Process.PokeData`). -/
def pokeData (st : ProcMem) (addr : Nat) (data : List Nat) : Option ProcMem :=
  if (List.range data.length).all (fun i => st.mapped (addr + i)) then
    some { st with
      mem := fun x => if addr ≤ x ∧ x < addr + data.length then data.getD (x - addr) 0 else st.mem x }
  else none

/-- Read a pointer-sized little-endian word from target memory
(src/common/regs.go `Process.ReadAddressAt`); the Go function returns 0
together with the error when the peek fails. -/
def readAddressAt (st : ProcMem) (addr : Nat) : Option Nat :=
  (peekData st addr SizeofPtr).map ReadAddress

/-! ## Breakpoint engine (src/common/breakpoint.go) -/

/-- Software breakpoint state. -/
structure Breakpoint where
  addr : Nat
  enabled : Bool
  savedData : List Nat
deriving DecidableEq, Repr

/-- `NewBreakpoint` (src/common/breakpoint.go): disabled, zeroed saved bytes. -/
def NewBreakpoint (addr : Nat) : Breakpoint :=
  { addr := addr, enabled := false, savedData := List.replicate trapInstructionSize 0 }

/-- Error outcomes of the breakpoint engine; constructors stand for the Go
error strings (`couldNotSaveOriginalInstruction` is the error
"could not save original instruction at %x"). -/
inductive BpError where
  | alreadyEnabled
  | alreadyDisabled
  | peekFailed
  | couldNotSaveOriginalInstruction
  | pokeFailed
  | breakpointAlreadyExists
deriving DecidableEq, Repr

/-- `Breakpoint.Enable` (src/common/breakpoint.go:30-51).  Returns the updated
breakpoint and memory, plus the error if any; the receiver is mutated in place
in Go, so failure paths return the partially updated breakpoint. -/
def Breakpoint.enable (bp : Breakpoint) (st : ProcMem) : Breakpoint × ProcMem × Option BpError :=
  if bp.enabled then (bp, st, some .alreadyEnabled)
  else
    match peekData st bp.addr trapInstructionSize with
    | none => (bp, st, some .peekFailed)
    | some saved =>
      let bp1 := { bp with savedData := saved }
      if saved = emptyInstr then (bp1, st, some .couldNotSaveOriginalInstruction)
      else
        match pokeData st bp.addr TrapInstruction with
        | none => (bp1, st, some .pokeFailed)
        | some st1 => ({ bp1 with enabled := true }, st1, none)

/-- `Breakpoint.Disable` (src/common/breakpoint.go:53-66). -/
def Breakpoint.disable (bp : Breakpoint) (st : ProcMem) : Breakpoint × ProcMem × Option BpError :=
  if bp.enabled then
    match pokeData st bp.addr bp.savedData with
    | none => (bp, st, some .pokeFailed)
    | some st1 => ({ bp with enabled := false }, st1, none)
  else (bp, st, some .alreadyDisabled)

/-- `Tracer.SetBreakpoint` (src/tracer.go:251-265): the breakpoint table is the
association list `bps` keyed by address. -/
def Tracer.setBreakpoint (bps : List (Nat × Breakpoint)) (st : ProcMem) (addr : Nat) :
    List (Nat × Breakpoint) × ProcMem × Option BpError :=
  if (bps.lookup addr).isSome then (bps, st, some .breakpointAlreadyExists)
  else
    match Breakpoint.enable (NewBreakpoint addr) st with
    | (bp, st1, none) => ((addr, bp) :: bps, st1, none)
    | (_, st1, some e) => (bps, st1, some e)

/-! ## C1: enable/disable roundtrip -/

/-- C1: for every address `a`, a successful `Enable` of a fresh breakpoint at
`a` followed by `Disable` is an identity on target memory (in fact on every
byte); while enabled, the `trapInstructionSize` bytes at `a` read back as the
trap instruction. -/
theorem breakpoint_enable_disable_roundtrip (st : ProcMem) (a : Nat)
    (bp1 : Breakpoint) (st1 : ProcMem)
    (h : Breakpoint.enable (NewBreakpoint a) st = (bp1, st1, none)) :
    peekData st1 a trapInstructionSize = some TrapInstruction ∧
    (Breakpoint.disable bp1 st1).2.2 = none ∧
    ∀ x, ((Breakpoint.disable bp1 st1).2.1).mem x = st.mem x := by
  simp only [Breakpoint.enable, NewBreakpoint] at h
  rw [if_neg (by simp)] at h
  cases hpk : peekData st a trapInstructionSize with
  | none => rw [hpk] at h; simp at h
  | some saved =>
    rw [hpk] at h
    by_cases hz : saved = emptyInstr
    · simp [hz] at h
    · simp only [if_neg hz] at h
      cases hpo : pokeData st a TrapInstruction with
      | none => rw [hpo] at h; simp at h
      | some stp =>
        rw [hpo] at h
        simp only [Prod.mk.injEq] at h
        obtain ⟨hbp, hst, -⟩ := h
        -- facts from the successful peek
        have hmap : st.mapped a = true := by
          by_contra hm
          simp [peekData, trapInstructionSize, TrapInstruction, hm] at hpk
        have hsaved : saved = [st.mem a] := by
          simp [peekData, trapInstructionSize, TrapInstruction, hmap] at hpk
          exact hpk.symm
        -- shape of the poked state
        have hstp_mem : ∀ x, stp.mem x =
            if a ≤ x ∧ x < a + 1 then 0xcc else st.mem x := by
          intro x
          simp [pokeData, TrapInstruction, hmap] at hpo
          rw [← hpo]
          by_cases hx : a ≤ x ∧ x < a + 1
          · have hxa : x - a = 0 := by omega
            simp [hx, hxa]
          · simp [hx]
        have hstp_mapped : stp.mapped = st.mapped := by
          simp [pokeData, TrapInstruction, hmap] at hpo
          rw [← hpo]
        subst hbp hst
        have hma : stp.mem a = 0xcc := by
          rw [hstp_mem a]; simp
        refine ⟨?_, ?_, ?_⟩
        · -- while enabled the memory holds the trap bytes
          have hr1 : List.range 1 = [0] := rfl
          simp [peekData, trapInstructionSize, TrapInstruction, hstp_mapped, hmap,
            hr1, hma]
        · -- disable succeeds
          simp [Breakpoint.disable, pokeData, hsaved, hstp_mapped, hmap]
        · -- memory is restored byte for byte
          intro x
          have hps : pokeData stp a saved = some { stp with
              mem := fun y => if a ≤ y ∧ y < a + 1 then saved.getD (y - a) 0 else stp.mem y } := by
            simp [pokeData, hsaved, hstp_mapped, hmap]
          simp only [Breakpoint.disable, if_true, hps]
          by_cases hx : a ≤ x ∧ x < a + 1
          · have hxa : x = a := by omega
            simp [hsaved, hxa]
          · simp [hx, hstp_mem x]

/-- Concrete fully mapped test memory with nonzero bytes. -/
def testMem : ProcMem := { mem := fun x => x % 251 + 1, mapped := fun _ => true }

/-- Witness for C1: the roundtrip theorem applied at `testMem` and address
4096, where `Enable` succeeds. -/
theorem breakpoint_enable_disable_roundtrip_witness :
    peekData (Breakpoint.enable (NewBreakpoint 4096) testMem).2.1 4096 trapInstructionSize
        = some TrapInstruction ∧
    (Breakpoint.disable (Breakpoint.enable (NewBreakpoint 4096) testMem).1
        (Breakpoint.enable (NewBreakpoint 4096) testMem).2.1).2.2 = none := by
  have h : Breakpoint.enable (NewBreakpoint 4096) testMem =
      ((Breakpoint.enable (NewBreakpoint 4096) testMem).1,
       (Breakpoint.enable (NewBreakpoint 4096) testMem).2.1, none) := rfl
  have hmain := breakpoint_enable_disable_roundtrip testMem 4096
    (Breakpoint.enable (NewBreakpoint 4096) testMem).1
    (Breakpoint.enable (NewBreakpoint 4096) testMem).2.1 h
  exact ⟨hmain.1, hmain.2.1⟩

/-! ## C2: breakpoint failure behaviour -/

/-- Memory whose every byte is the 0xcc trap opcode. -/
def trapFilledMem : ProcMem := { mem := fun _ => 0xcc, mapped := fun _ => true }

/-- C2 counterexample: at address 4096 of `trapFilledMem` the peeked
`trapInstructionSize` bytes equal the trap-instruction bytes, yet `Enable`
does not fail — it succeeds and marks the breakpoint enabled, because the
source compares the saved bytes against the zero-filled `emptyInstr`, not
against `arch.TrapInstruction`. -/
theorem setBreakpoint_trap_bytes_counterexample :
    peekData trapFilledMem 4096 trapInstructionSize = some TrapInstruction ∧
    (Breakpoint.enable (NewBreakpoint 4096) trapFilledMem).2.2 = none ∧
    (Breakpoint.enable (NewBreakpoint 4096) trapFilledMem).1.enabled = true :=
  ⟨rfl, rfl, rfl⟩

/-- Every failing `Breakpoint.Enable` leaves the memory untouched and the
enabled flag as it was. -/
theorem enable_fail_state (bp : Breakpoint) (st : ProcMem) :
    ∀ e, (Breakpoint.enable bp st).2.2 = some e →
      (Breakpoint.enable bp st).2.1 = st ∧
      (Breakpoint.enable bp st).1.enabled = bp.enabled := by
  intro e h
  cases hb : bp.enabled with
  | true => simp [Breakpoint.enable, hb]
  | false =>
    simp only [Breakpoint.enable, hb, Bool.false_eq_true, if_false] at h ⊢
    cases hpk : peekData st bp.addr trapInstructionSize with
    | none => simp [hpk, hb]
    | some saved =>
      simp only [hpk] at h ⊢
      by_cases hz : saved = emptyInstr
      · simp [hz, hb]
      · simp only [if_neg hz] at h ⊢
        cases hpo : pokeData st bp.addr TrapInstruction with
        | none => simp [hpo, hb]
        | some st1 => simp [hpo] at h

/-- C2 (amended): `SetBreakpoint` fails when a breakpoint already exists at
the address; `Enable` fails with "could not save original instruction"
exactly when the peeked bytes are all ZERO (`emptyInstr`), not when they
equal the trap bytes; and every failure leaves the breakpoint table,
the target memory and the disabled state untouched. -/
theorem setBreakpoint_failure_spec (bps : List (Nat × Breakpoint)) (st : ProcMem) (addr : Nat) :
    ((bps.lookup addr).isSome = true →
      Tracer.setBreakpoint bps st addr = (bps, st, some .breakpointAlreadyExists)) ∧
    (∀ saved, (bps.lookup addr).isSome = false →
      peekData st addr trapInstructionSize = some saved →
      ((Tracer.setBreakpoint bps st addr).2.2 = some .couldNotSaveOriginalInstruction ↔
        saved = emptyInstr)) ∧
    (∀ e, (Tracer.setBreakpoint bps st addr).2.2 = some e →
      (Tracer.setBreakpoint bps st addr).1 = bps ∧
      (Tracer.setBreakpoint bps st addr).2.1 = st) ∧
    (∀ e, (Breakpoint.enable (NewBreakpoint addr) st).2.2 = some e →
      (Breakpoint.enable (NewBreakpoint addr) st).1.enabled = false) := by
  refine ⟨?_, ?_, ?_, ?_⟩
  · intro h
    simp [Tracer.setBreakpoint, h]
  · intro saved hlk hpk
    simp only [Tracer.setBreakpoint, hlk, Bool.false_eq_true, if_false]
    simp only [Breakpoint.enable, NewBreakpoint, Bool.false_eq_true, if_false, hpk]
    by_cases hz : saved = emptyInstr
    · simp [hz]
    · simp only [if_neg hz]
      cases hpo : pokeData st addr TrapInstruction with
      | none => simp [hpo, hz]
      | some st1 => simp [hpo, hz]
  · intro e h
    by_cases hlk : (bps.lookup addr).isSome = true
    · simp [Tracer.setBreakpoint, hlk]
    · simp only [Tracer.setBreakpoint, hlk, if_false] at h ⊢
      rcases hen : Breakpoint.enable (NewBreakpoint addr) st with ⟨bp1, st1, oe⟩
      cases oe with
      | none => rw [hen] at h; simp at h
      | some e1 =>
        rw [hen] at h
        have hst := (enable_fail_state (NewBreakpoint addr) st e1 (by rw [hen])).1
        rw [hen] at hst
        simp_all
  · intro e h
    have := enable_fail_state (NewBreakpoint addr) st e h
    simpa [NewBreakpoint] using this.2

/-- Concrete fully mapped memory whose bytes are all zero. -/
def zeroMem : ProcMem := { mem := fun _ => 0, mapped := fun _ => true }

/-- Witness for C2: on all-zero memory, `SetBreakpoint` at 4096 fails with
"could not save original instruction" and leaves the table and memory
untouched. -/
theorem setBreakpoint_failure_spec_witness :
    (Tracer.setBreakpoint [] zeroMem 4096).2.2 = some BpError.couldNotSaveOriginalInstruction ∧
    (Tracer.setBreakpoint [] zeroMem 4096).1 = [] ∧
    (Tracer.setBreakpoint [] zeroMem 4096).2.1 = zeroMem := by
  have h := setBreakpoint_failure_spec [] zeroMem 4096
  have h2 := (h.2.1 emptyInstr rfl rfl).mpr rfl
  have h3 := h.2.2.1 BpError.couldNotSaveOriginalInstruction h2
  exact ⟨h2, h3.1, h3.2⟩

/-! ## C3: WaitForEvent SIGTRAP classification (src/tracer.go:362-422) -/

/-- Linux signal number of SIGTRAP. -/
def SIGTRAP : Nat := 5

/-- Linux signal number of SIGCONT. -/
def SIGCONT : Nat := 18

/-- Observable outcome of the classification step of `Tracer.WaitForEvent`:
the event's breakpoint flag and PC, the thread's register file after the
optional `SetPC`, and the signal to deliver on the next continue. -/
structure EventClass where
  isBreakpoint : Bool
  pc : Nat
  regs : List Nat
  deliverSignal : Nat
deriving DecidableEq, Repr

/-- Classification step of `Tracer.WaitForEvent` (src/tracer.go:376-404),
given the breakpoint-table keys `bps`, the stopped thread's register file and
the delivered signal.  The Go tracer reads PC via `GetPC` (register index
`PCRegNum`) and rewrites it via `SetPC`; the package-raztracer Process copy
implementing those ptrace wrappers is absent from src, so (modelled from the
spec, §4.B) register access is the full native register block `regs`. -/
def Tracer.classifySignal (bps : List Nat) (regs : List Nat) (sig : Nat) : EventClass :=
  let pc := regs.getD PCRegNum 0
  if sig = SIGTRAP then
    if bps.contains (usub64 pc trapInstructionSize) then
      let pc1 := usub64 pc trapInstructionSize
      { isBreakpoint := true, pc := pc1, regs := regs.set PCRegNum pc1,
        deliverSignal := SIGCONT }
    else
      { isBreakpoint := false, pc := pc, regs := regs, deliverSignal := SIGCONT }
  else
    { isBreakpoint := false, pc := pc, regs := regs, deliverSignal := sig }

/-- C3: on a SIGTRAP whose `pc - trap_size` is a breakpoint-table key the
event is marked as a breakpoint and the PC is rewritten to `pc - trap_size`
both in the event record and in the register file; on a SIGTRAP at an
unknown address the PC and registers are left unchanged and the flag stays
false. -/
theorem waitForEvent_sigtrap_classification (bps : List Nat) (regs : List Nat) (pc : Nat)
    (hpc : regs.getD PCRegNum 0 = pc) :
    (bps.contains (usub64 pc trapInstructionSize) = true →
      Tracer.classifySignal bps regs SIGTRAP =
        { isBreakpoint := true, pc := usub64 pc trapInstructionSize,
          regs := regs.set PCRegNum (usub64 pc trapInstructionSize),
          deliverSignal := SIGCONT }) ∧
    (bps.contains (usub64 pc trapInstructionSize) = false →
      Tracer.classifySignal bps regs SIGTRAP =
        { isBreakpoint := false, pc := pc, regs := regs, deliverSignal := SIGCONT }) := by
  subst hpc
  constructor <;> intro h <;> simp_all [Tracer.classifySignal]

/-- Witness for C3: a thread stopped at PC 4097 with a breakpoint at 4096. -/
theorem waitForEvent_sigtrap_classification_witness :
    Tracer.classifySignal [4096] (List.replicate 16 0 ++ [4097]) SIGTRAP =
      { isBreakpoint := true, pc := 4096,
        regs := (List.replicate 16 0 ++ [4097]).set PCRegNum 4096,
        deliverSignal := SIGCONT } :=
  (waitForEvent_sigtrap_classification [4096] (List.replicate 16 0 ++ [4097]) 4097
    (by decide)).1 (by decide)

/-! ## C4: wait demultiplexer (src/common/regs.go:135-190, `Process.Wait`)

The Go loop polls `wait4(-pgid, &status, WALL|WUNTRACED|WNOHANG)` until the
timer fires.  It is modelled as a step function over the successive wait4
observations; the timer firing is the end of the observation list. -/

/-- Ptrace event code reported for a fork stop. -/
def PTRACE_EVENT_FORK : Nat := 1

/-- Ptrace event code reported for a clone stop. -/
def PTRACE_EVENT_CLONE : Nat := 3

/-- Decoded `syscall.WaitStatus` of a reported thread (the bit-level decoding
lives in Go's syscall package, outside this repository). -/
inductive WStatus where
  | exited
  | continued
  | stopped (sig : Nat) (trapCause : Nat)
  | signaled (sig : Nat)
deriving DecidableEq, Repr

/-- One wait4 observation: an error, or a reported pid with its status.
`wpid = 0` stands for the Go `wpid <= 0` no-child case; `eventMsg` is the
value `PtraceGetEventMsg` would return for this stop (`none` = it fails). -/
inductive Wait4Result where
  | fail
  | child (wpid : Nat) (status : WStatus) (eventMsg : Option Nat)
deriving DecidableEq, Repr

/-- Ptrace side effects the wait loop performs while polling: `Attach` of a
new thread, and `PtraceCont` with a signal number (0 = no signal). -/
inductive WaitAction where
  | attach (tid : Nat)
  | ptraceCont (tid : Nat) (sig : Nat)
deriving DecidableEq, Repr

/-- Errors `Process.Wait` can return. -/
inductive WaitErr where
  | wait4Failed
  | getEventMsgFailed
deriving DecidableEq, Repr

/-- Outcome of one loop iteration: return to the caller, or keep polling
after performing some ptrace actions. -/
inductive WaitStep where
  | ret (tid : Nat) (err : Option WaitErr)
  | poll (actions : List WaitAction)
deriving DecidableEq, Repr

/-- One iteration of the `Process.Wait` loop (src/common/regs.go:139-189). -/
def Process.waitStep (r : Wait4Result) : WaitStep :=
  match r with
  | .fail => .ret 0 (some .wait4Failed)
  | .child wpid status msg =>
    if wpid = 0 then .poll []
    else
      match status with
      | .exited => .poll []
      | .continued => .poll []
      | .stopped sig cause =>
        if sig = SIGTRAP then
          if cause = 0 then .ret wpid none
          else if cause = PTRACE_EVENT_CLONE ∨ cause = PTRACE_EVENT_FORK then
            match msg with
            | none => .ret 0 (some .getEventMsgFailed)
            | some newpid =>
              .poll [.attach newpid, .ptraceCont newpid SIGCONT, .ptraceCont wpid 0]
          else .poll [.ptraceCont wpid 0]
        else .ret wpid none
      | .signaled _ => .ret wpid none

/-- The `Process.Wait` loop over a finite observation sequence; exhausting
the sequence is the timer firing, returning `(0, nil)`.  Also accumulates
the ptrace actions performed while polling. -/
def Process.wait : List Wait4Result → (Nat × Option WaitErr) × List WaitAction
  | [] => ((0, none), [])
  | p :: rest =>
    match Process.waitStep p with
    | .ret tid err => ((tid, err), [])
    | .poll acts =>
      let r := Process.wait rest
      (r.1, acts ++ r.2)

/-- Spec-side description (§4.B wait rules) of an observation that the loop
swallows silently: no child, exited/continued states, and trap stops whose
cause is nonzero (with a successful event-message retrieval when the cause
is clone or fork).  Used to state C4(f): `(0, nil)` is exactly a timeout. -/
def swallowedPoll (r : Wait4Result) : Bool :=
  match r with
  | .fail => false
  | .child wpid status msg =>
    if wpid = 0 then true
    else
      match status with
      | .exited => true
      | .continued => true
      | .stopped sig cause =>
        if sig = SIGTRAP then
          if cause = 0 then false
          else if cause = PTRACE_EVENT_CLONE ∨ cause = PTRACE_EVENT_FORK then msg.isSome
          else true
        else false
      | .signaled _ => false

/-- A returning step is never a swallowed observation, and it never returns
the timeout shape `(0, nil)`. -/
theorem waitStep_ret_not_swallowed (p : Wait4Result) (tid : Nat) (err : Option WaitErr)
    (h : Process.waitStep p = .ret tid err) :
    swallowedPoll p = false ∧ ¬(tid = 0 ∧ err = none) := by
  cases p with
  | fail =>
    simp [Process.waitStep] at h
    simp [swallowedPoll, ← h.1, ← h.2]
  | child wpid status msg =>
    simp only [Process.waitStep] at h
    by_cases hw : wpid = 0
    · simp [hw] at h
    · simp only [hw, if_false] at h
      cases status with
      | exited => simp at h
      | continued => simp at h
      | signaled s =>
        simp at h
        simp [swallowedPoll, hw, ← h.1, ← h.2]
      | stopped sig cause =>
        by_cases hs : sig = SIGTRAP
        · simp only [hs, if_true] at h
          by_cases hc : cause = 0
          · simp only [hc, if_true] at h
            simp at h
            simp [swallowedPoll, hw, hs, hc, ← h.1, ← h.2]
          · simp only [hc, if_false] at h
            by_cases hcf : cause = PTRACE_EVENT_CLONE ∨ cause = PTRACE_EVENT_FORK
            · simp only [hcf, if_true] at h
              cases msg with
              | none =>
                simp at h
                simp [swallowedPoll, hw, hs, hc, hcf, ← h.1, ← h.2]
              | some newpid => simp at h
            · simp only [hcf, if_false] at h
              simp at h
        · simp only [hs, if_false] at h
          simp at h
          simp [swallowedPoll, hw, hs, ← h.1, ← h.2]

/-- A polling step is a swallowed observation. -/
theorem waitStep_poll_swallowed (p : Wait4Result) (acts : List WaitAction)
    (h : Process.waitStep p = .poll acts) :
    swallowedPoll p = true := by
  cases p with
  | fail => simp [Process.waitStep] at h
  | child wpid status msg =>
    simp only [Process.waitStep] at h
    by_cases hw : wpid = 0
    · simp [swallowedPoll, hw]
    · simp only [hw, if_false] at h
      cases status with
      | exited => simp [swallowedPoll, hw]
      | continued => simp [swallowedPoll, hw]
      | signaled s => simp at h
      | stopped sig cause =>
        by_cases hs : sig = SIGTRAP
        · simp only [hs, if_true] at h
          by_cases hc : cause = 0
          · simp [hc] at h
          · simp only [hc, if_false] at h
            by_cases hcf : cause = PTRACE_EVENT_CLONE ∨ cause = PTRACE_EVENT_FORK
            · simp only [hcf, if_true] at h
              cases msg with
              | none => simp at h
              | some newpid => simp [swallowedPoll, hw, hs, hc, hcf]
            · simp [swallowedPoll, hw, hs, hc, hcf]
        · simp [hs] at h

/-- C4: the wait demultiplexer as a step function over successive wait4
statuses — (a) exited/continued are swallowed and polling continues,
(b) a non-SIGTRAP stop returns `(tid, nil)`, (c) a SIGTRAP stop returns
`(tid, nil)` only when the trap cause is 0, (d) on a clone/fork trap the new
tid from `PtraceGetEventMsg` is attached and continued, the parent is
continued, and polling goes on, (e) any other trap cause continues the
thread and keeps polling, and (f) `(0, nil)` is returned exactly when the
observations run out (the timeout fires) without a reportable event. -/
theorem process_wait_demux_spec :
    (∀ wpid msg rest, wpid ≠ 0 →
      Process.wait (.child wpid .exited msg :: rest) = Process.wait rest ∧
      Process.wait (.child wpid .continued msg :: rest) = Process.wait rest) ∧
    (∀ wpid sig cause msg, wpid ≠ 0 → sig ≠ SIGTRAP →
      Process.waitStep (.child wpid (.stopped sig cause) msg) = .ret wpid none) ∧
    (∀ wpid msg, wpid ≠ 0 →
      Process.waitStep (.child wpid (.stopped SIGTRAP 0) msg) = .ret wpid none) ∧
    (∀ wpid cause msg tid, cause ≠ 0 →
      Process.waitStep (.child wpid (.stopped SIGTRAP cause) msg) ≠ .ret tid none) ∧
    (∀ wpid cause newpid, wpid ≠ 0 →
      cause = PTRACE_EVENT_CLONE ∨ cause = PTRACE_EVENT_FORK →
      Process.waitStep (.child wpid (.stopped SIGTRAP cause) (some newpid)) =
        .poll [.attach newpid, .ptraceCont newpid SIGCONT, .ptraceCont wpid 0]) ∧
    (∀ wpid cause msg, wpid ≠ 0 → cause ≠ 0 →
      ¬(cause = PTRACE_EVENT_CLONE ∨ cause = PTRACE_EVENT_FORK) →
      Process.waitStep (.child wpid (.stopped SIGTRAP cause) msg) =
        .poll [.ptraceCont wpid 0]) ∧
    (∀ polls, (Process.wait polls).1 = (0, none) ↔ polls.all swallowedPoll = true) := by
  refine ⟨?_, ?_, ?_, ?_, ?_, ?_, ?_⟩
  · intro wpid msg rest hw
    constructor <;> simp [Process.wait, Process.waitStep, hw]
  · intro wpid sig cause msg hw hs
    simp [Process.waitStep, hw, hs]
  · intro wpid msg hw
    simp [Process.waitStep, hw]
  · intro wpid cause msg tid hc h
    by_cases hw : wpid = 0
    · simp [Process.waitStep, hw] at h
    · simp only [Process.waitStep, hw, if_false, if_true, hc, if_neg] at h
      by_cases hcf : cause = PTRACE_EVENT_CLONE ∨ cause = PTRACE_EVENT_FORK
      · simp only [hcf, if_true] at h
        cases msg with
        | none => simp at h
        | some newpid => simp at h
      · simp [hcf] at h
  · intro wpid cause newpid hw hcf
    have hc : cause ≠ 0 := by
      rcases hcf with h | h <;> simp [h, PTRACE_EVENT_CLONE, PTRACE_EVENT_FORK]
    simp [Process.waitStep, hw, hc, hcf]
  · intro wpid cause msg hw hc hcf
    simp [Process.waitStep, hw, hc, hcf]
  · intro polls
    induction polls with
    | nil => simp [Process.wait]
    | cons p rest ih =>
      simp only [Process.wait]
      cases hstep : Process.waitStep p with
      | ret tid err =>
        have hns := waitStep_ret_not_swallowed p tid err hstep
        simp only [List.all_cons, hns.1, Bool.false_and]
        constructor
        · intro hh
          exact absurd ⟨congrArg Prod.fst hh, congrArg Prod.snd hh⟩ hns.2
        · intro hh; exact absurd hh (by simp)
      | poll acts =>
        have hsw := waitStep_poll_swallowed p acts hstep
        simpa [List.all_cons, hsw] using ih

/-- Witness for C4: a clone stop of thread 7 reporting new thread 9 attaches
and continues 9, continues 7, and keeps polling; and the timeout
characterization applied at a concrete observation list. -/
theorem process_wait_demux_spec_witness :
    Process.waitStep (.child 7 (.stopped SIGTRAP PTRACE_EVENT_CLONE) (some 9)) =
      .poll [.attach 9, .ptraceCont 9 SIGCONT, .ptraceCont 7 0] ∧
    ((Process.wait [.child 7 .exited none, .fail]).1 = (0, none) ↔
      List.all [Wait4Result.child 7 .exited none, .fail] swallowedPoll = true) :=
  ⟨process_wait_demux_spec.2.2.2.2.1 7 PTRACE_EVENT_CLONE 9 (by decide) (Or.inl rfl),
   process_wait_demux_spec.2.2.2.2.2.2 [.child 7 .exited none, .fail]⟩

/-! ## C5: Process.GetRegs (src/common/regs.go:245-260, src/unnamed/part_002:167-182) -/

/-- The kernel register struct `syscall.PtraceRegs` for x86-64: 27 uint64
fields. -/
structure PtraceRegs where
  fields : Fin 27 → Nat

/-- The flat register vector the Go loop fills from the kernel struct by
reflection, one entry per struct field. -/
def PtraceRegs.toList (p : PtraceRegs) : List Nat := List.ofFn p.fields

/-- Failure of the underlying PTRACE_GETREGS call. -/
inductive PtraceErr where
  | failed
deriving DecidableEq, Repr

/-- `Process.GetRegs`: on a ptrace error it propagates the error; on success
the Go code fills the local slice `regs` from the struct fields and then
executes `return nil, nil`, discarding the filled slice
(src/common/regs.go:253-259, src/unnamed/part_002:175-181). -/
def Process.GetRegs (res : Except PtraceErr PtraceRegs) :
    Except PtraceErr (Option (List Nat)) :=
  match res with
  | .error e => .error e
  | .ok pregs =>
    let _regs := pregs.toList
    .ok none

/-- C5 (code bug): for every successfully read register struct, `GetRegs`
returns the nil slice instead of the filled 27-entry register vector that
its doc comment promises and that its callers (such as `GetPC`, which
indexes `regs[PCRegNum]`) require. -/
theorem getRegs_returns_nil_bug (pregs : PtraceRegs) :
    Process.GetRegs (.ok pregs) = .ok none ∧ (PtraceRegs.toList pregs).length = 27 := by
  exact ⟨rfl, by simp [PtraceRegs.toList]⟩

/-! ## DWARF expression evaluator (src/unnamed/part_005, package op)

The opcode constant table and the LEB128 decoders (`util` package) are not
among the source files; the constants are modelled from the spec (§4.D
lists the supported opcode set) with the standard DWARF numbering, and the
decoders with standard LEB128 semantics. -/

namespace op

/-- DW_OP_addr opcode. -/
def DW_OP_addr : Nat := 0x03

/-- DW_OP_consts opcode. -/
def DW_OP_consts : Nat := 0x11

/-- DW_OP_plus opcode. -/
def DW_OP_plus : Nat := 0x22

/-- DW_OP_plus_uconst opcode. -/
def DW_OP_plus_uconst : Nat := 0x23

/-- DW_OP_reg0, the first of the DW_OP_reg0..reg31 range. -/
def DW_OP_reg0 : Nat := 0x50

/-- DW_OP_reg31, the last of the DW_OP_reg0..reg31 range. -/
def DW_OP_reg31 : Nat := 0x6f

/-- DW_OP_breg0, the first of the DW_OP_breg0..breg31 range. -/
def DW_OP_breg0 : Nat := 0x70

/-- DW_OP_breg31, the last of the DW_OP_breg0..breg31 range. -/
def DW_OP_breg31 : Nat := 0x8f

/-- DW_OP_regx opcode. -/
def DW_OP_regx : Nat := 0x90

/-- DW_OP_fbreg opcode. -/
def DW_OP_fbreg : Nat := 0x91

/-- DW_OP_bregx opcode. -/
def DW_OP_bregx : Nat := 0x92

/-- DW_OP_piece opcode. -/
def DW_OP_piece : Nat := 0x93

/-- DW_OP_call_frame_cfa opcode. -/
def DW_OP_call_frame_cfa : Nat := 0x9c

/-- Register snapshot carried by the evaluator (delve-derived
`op.DwarfRegisters`; the defining file is absent from src, modelled from the
spec: a register snapshot carrying CFA, frame base, static base, and the
per-DWARF-number register values, unset registers reading as nil). -/
structure DwarfRegisters where
  regs : Nat → Option Nat
  cfa : Int
  frameBase : Int
  staticBase : Nat

/-- `DwarfRegisters.Reg`: nil for an unset register. -/
def DwarfRegisters.Reg (r : DwarfRegisters) (n : Nat) : Option Nat := r.regs n

/-- `DwarfRegisters.Uint64Val`: the register value, or 0 when unset. -/
def DwarfRegisters.Uint64Val (r : DwarfRegisters) (n : Nat) : Nat := (r.regs n).getD 0

/-- A piece of a composite location: register-sourced or memory-sourced
(src/unnamed/part_005 `Piece`). -/
structure Piece where
  size : Nat
  addr : Int
  regNum : Nat
  isRegister : Bool
deriving DecidableEq, Repr

/-- ULEB128 decoding, returning the value and the number of bytes
consumed. -/
def decodeULEB128Go : List Nat → Nat → Nat → Nat × Nat
  | [], _, acc => (acc, 0)
  | b :: rest, shift, acc =>
    let acc2 := acc + b % 128 * 2 ^ shift
    if b < 128 then (acc2, 1)
    else
      let r := decodeULEB128Go rest (shift + 7) acc2
      (r.1, r.2 + 1)

/-- ULEB128 decoding of a buffer front. -/
def decodeULEB128 (l : List Nat) : Nat × Nat := decodeULEB128Go l 0 0

/-- SLEB128 decoding, returning the value and the number of bytes
consumed. -/
def decodeSLEB128Go : List Nat → Nat → Nat → Int × Nat
  | [], _, acc => ((acc : Int), 0)
  | b :: rest, shift, acc =>
    let acc2 := acc + b % 128 * 2 ^ shift
    if b < 128 then
      let v : Int := if 64 ≤ b % 128 then (acc2 : Int) - ((2 ^ (shift + 7) : Nat) : Int)
        else (acc2 : Int)
      (v, 1)
    else
      let r := decodeSLEB128Go rest (shift + 7) acc2
      (r.1, r.2 + 1)

/-- SLEB128 decoding of a buffer front. -/
def decodeSLEB128 (l : List Nat) : Int × Nat := decodeSLEB128Go l 0 0

/-- Little-endian uint64 read of the first 8 bytes of a buffer
(Go `ByteOrder.Uint64`). -/
def leUint64 (l : List Nat) : Nat :=
  (List.range 8).foldr (fun i acc => acc * 256 + l.getD i 0 % 256) 0

/-- Evaluator state (src/unnamed/part_005 `context`): operand stack with the
top at the END of the list (Go appends), emitted pieces, the register flag,
and the register snapshot. -/
structure EvalCtx where
  stack : List Int
  pieces : List Piece
  reg : Bool
  regs : DwarfRegisters

/-- Evaluator errors; `goPanic` marks inputs on which the Go code raises a
runtime panic (short buffer reads, stack-slice underflow). -/
inductive EvalErr where
  | invalidInstruction (opcode : Nat)
  | cfaUnavailable
  | emptyOPStack
  | goPanic
deriving DecidableEq, Repr

/-- Membership in the opcode dispatch table `oplut`.  Modelled from the
spec: the table source file is absent from src; §4.D lists the supported
set (`addr`, `call_frame_cfa`, `consts`, `plus`, `plus_uconst`, `fbreg`,
`reg0..reg31`/`regx`, `breg0..breg31`/`bregx`, `piece`). -/
def oplutContains (opc : Nat) : Bool :=
  opc = DW_OP_addr || opc = DW_OP_call_frame_cfa || opc = DW_OP_consts ||
  opc = DW_OP_plus || opc = DW_OP_plus_uconst || opc = DW_OP_fbreg ||
  (decide (DW_OP_reg0 ≤ opc) && decide (opc ≤ DW_OP_reg31)) || opc = DW_OP_regx ||
  (decide (DW_OP_breg0 ≤ opc) && decide (opc ≤ DW_OP_breg31)) || opc = DW_OP_bregx ||
  opc = DW_OP_piece

/-- One opcode handler dispatch (the `stackfn`s of src/unnamed/part_005),
over the buffer remaining after the opcode byte; returns the new state and
the number of bytes consumed. -/
def execOp (opc : Nat) (buf : List Nat) (ctx : EvalCtx) : Except EvalErr (EvalCtx × Nat) :=
  if opc = DW_OP_call_frame_cfa then
    if ctx.regs.cfa = 0 then .error .cfaUnavailable
    else .ok ({ ctx with stack := ctx.stack ++ [ctx.regs.cfa] }, 0)
  else if opc = DW_OP_addr then
    if buf.length < SizeofPtr then .error .goPanic
    else .ok ({ ctx with
      stack := ctx.stack ++ [i64ofUInt64 ((leUint64 buf + ctx.regs.staticBase) % 2 ^ 64)] },
      SizeofPtr)
  else if opc = DW_OP_plus then
    if ctx.stack.length < 2 then .error .goPanic
    else
      let slen := ctx.stack.length
      let a := ctx.stack.getD (slen - 2) 0
      let b := ctx.stack.getD (slen - 1) 0
      .ok ({ ctx with stack := ctx.stack.take (slen - 2) ++ [wrap64 (a + b)] }, 0)
  else if opc = DW_OP_plus_uconst then
    let r := decodeULEB128 buf
    if ctx.stack.length = 0 then .error .goPanic
    else
      let slen := ctx.stack.length
      let last := ctx.stack.getD (slen - 1) 0
      .ok ({ ctx with
        stack := ctx.stack.take (slen - 1) ++ [wrap64 (last + i64ofUInt64 (r.1 % 2 ^ 64))] },
        r.2)
  else if opc = DW_OP_consts then
    let r := decodeSLEB128 buf
    .ok ({ ctx with stack := ctx.stack ++ [wrap64 r.1] }, r.2)
  else if opc = DW_OP_fbreg then
    let r := decodeSLEB128 buf
    .ok ({ ctx with stack := ctx.stack ++ [wrap64 (ctx.regs.frameBase + r.1)] }, r.2)
  else if DW_OP_reg0 ≤ opc ∧ opc ≤ DW_OP_reg31 then
    .ok ({ ctx with
      reg := true
      pieces := ctx.pieces ++ [⟨0, 0, opc - DW_OP_reg0, true⟩] }, 0)
  else if opc = DW_OP_regx then
    let r := decodeSLEB128 buf
    .ok ({ ctx with
      reg := true
      pieces := ctx.pieces ++ [⟨0, 0, toUInt64 r.1, true⟩] }, r.2)
  else if DW_OP_breg0 ≤ opc ∧ opc ≤ DW_OP_breg31 then
    let r := decodeSLEB128 buf
    let rv := ctx.regs.Uint64Val (opc - DW_OP_breg0)
    .ok ({ ctx with stack := ctx.stack ++ [wrap64 (i64ofUInt64 rv + r.1)] }, r.2)
  else if opc = DW_OP_bregx then
    let r1 := decodeSLEB128 buf
    let r2 := decodeSLEB128 (buf.drop r1.2)
    let rv := ctx.regs.Uint64Val (toUInt64 r1.1)
    .ok ({ ctx with stack := ctx.stack ++ [wrap64 (i64ofUInt64 rv + r2.1)] }, r1.2 + r2.2)
  else if opc = DW_OP_piece then
    let r := decodeULEB128 buf
    if ctx.reg then
      match ctx.pieces.getLast? with
      | none => .error .goPanic
      | some lastPiece =>
        .ok ({ ctx with
          reg := false
          pieces := ctx.pieces.dropLast ++ [{ lastPiece with size := r.1 }] }, r.2)
    else
      if ctx.stack.length = 0 then .error .emptyOPStack
      else
        let addr := ctx.stack.getD (ctx.stack.length - 1) 0
        .ok ({ ctx with
          pieces := ctx.pieces ++ [⟨r.1, addr, 0, false⟩]
          stack := [] }, r.2)
  else .error (.invalidInstruction opc)

/-- The main evaluation loop (src/unnamed/part_005:49-67): read an opcode
byte; with the register flag set and an opcode other than DW_OP_piece, stop;
an opcode missing from the dispatch table is an invalid-instruction error;
otherwise run the handler and continue on the remaining buffer. -/
def execLoop (buf : List Nat) (ctx : EvalCtx) : Except EvalErr EvalCtx :=
  match buf with
  | [] => .ok ctx
  | opc :: rest =>
    if ctx.reg = true ∧ opc ≠ DW_OP_piece then .ok ctx
    else if oplutContains opc = false then .error (.invalidInstruction opc)
    else
      match execOp opc rest ctx with
      | .error e => .error e
      | .ok (ctx2, k) => execLoop (rest.drop k) ctx2
termination_by buf.length
decreasing_by simp [List.length_drop]; omega

/-- `ExecuteStackProgram` (src/unnamed/part_005:42-78): run the loop; if
pieces were emitted return them, otherwise the top of stack, an empty stack
being an error. -/
def ExecuteStackProgram (regs : DwarfRegisters) (instructions : List Nat) :
    Except EvalErr (Int × List Piece) :=
  match execLoop instructions { stack := [], pieces := [], reg := false, regs := regs } with
  | .error e => .error e
  | .ok ctx =>
    if ctx.pieces ≠ [] then .ok (0, ctx.pieces)
    else
      match ctx.stack.getLast? with
      | none => .error .emptyOPStack
      | some top => .ok (top, [])

/-- Unfolding of `execLoop` on the empty buffer. -/
theorem execLoop_nil (ctx : EvalCtx) : execLoop [] ctx = .ok ctx := by
  rw [execLoop]

/-- Unfolding of `execLoop` on one opcode byte. -/
theorem execLoop_cons (opc : Nat) (rest : List Nat) (ctx : EvalCtx) :
    execLoop (opc :: rest) ctx =
      if ctx.reg = true ∧ opc ≠ DW_OP_piece then .ok ctx
      else if oplutContains opc = false then .error (.invalidInstruction opc)
      else
        match execOp opc rest ctx with
        | .error e => .error e
        | .ok (ctx2, k) => execLoop (rest.drop k) ctx2 := by
  rw [execLoop]

end op

/-! ## C6: evaluator completion and unknown-opcode behaviour -/

/-- C6 counterexample: on the byte sequence `[DW_OP_reg0, 0xff]` the opcode
0xff is outside the supported set, yet `ExecuteStackProgram` reports no
error: after `DW_OP_reg0` sets the register flag, the loop breaks on any
opcode other than DW_OP_piece BEFORE the dispatch-table lookup, silently
ignoring the unknown opcode and returning the accumulated piece list. -/
theorem executeStackProgram_silent_stop_counterexample :
    op.oplutContains 0xff = false ∧
    op.ExecuteStackProgram ⟨fun _ => none, 0, 0, 0⟩ [op.DW_OP_reg0, 0xff] =
      .ok (0, [⟨0, 0, 0, true⟩]) := by
  have hloop : op.execLoop [op.DW_OP_reg0, 0xff] ⟨[], [], false, ⟨fun _ => none, 0, 0, 0⟩⟩ =
      .ok ⟨[], [⟨0, 0, 0, true⟩], true, ⟨fun _ => none, 0, 0, 0⟩⟩ := by
    rw [op.execLoop_cons, if_neg (by simp), if_neg (by decide)]
    rw [show op.execOp op.DW_OP_reg0 [0xff] ⟨[], [], false, ⟨fun _ => none, 0, 0, 0⟩⟩ =
        .ok (⟨[], [⟨0, 0, 0, true⟩], true, ⟨fun _ => none, 0, 0, 0⟩⟩, 0) from rfl]
    simp only [List.drop_zero]
    rw [op.execLoop_cons, if_pos ⟨rfl, by decide⟩]
  refine ⟨by decide, ?_⟩
  unfold op.ExecuteStackProgram
  rw [hloop]
  rfl

/-- C6 (amended): the evaluator returns the piece list when at least one
piece was emitted, else the top of stack, an empty stack with no pieces
being an error; an opcode missing from the dispatch table met with the
register flag CLEAR is an error — but with the register flag set (a register
piece awaiting its DW_OP_piece) any opcode other than DW_OP_piece, unknown
opcodes included, silently stops evaluation instead of erroring. -/
theorem executeStackProgram_completion_spec :
    (∀ (ctx : op.EvalCtx) (opc : Nat) (rest : List Nat), ctx.reg = false →
      op.oplutContains opc = false →
      op.execLoop (opc :: rest) ctx = .error (.invalidInstruction opc)) ∧
    (∀ (ctx : op.EvalCtx) (opc : Nat) (rest : List Nat), ctx.reg = true →
      opc ≠ op.DW_OP_piece →
      op.execLoop (opc :: rest) ctx = .ok ctx) ∧
    (∀ (regs : op.DwarfRegisters) (instrs : List Nat) (ctx : op.EvalCtx),
      op.execLoop instrs ⟨[], [], false, regs⟩ = .ok ctx →
      (ctx.pieces ≠ [] →
        op.ExecuteStackProgram regs instrs = .ok (0, ctx.pieces)) ∧
      (ctx.pieces = [] → ctx.stack = [] →
        op.ExecuteStackProgram regs instrs = .error .emptyOPStack) ∧
      (∀ top, ctx.pieces = [] → ctx.stack.getLast? = some top →
        op.ExecuteStackProgram regs instrs = .ok (top, []))) := by
  refine ⟨?_, ?_, ?_⟩
  · intro ctx opc rest hreg hop
    rw [op.execLoop_cons, if_neg (by simp [hreg]), if_pos hop]
  · intro ctx opc rest hreg hop
    rw [op.execLoop_cons, if_pos ⟨hreg, hop⟩]
  · intro regs instrs ctx hloop
    refine ⟨?_, ?_, ?_⟩
    · intro hp
      unfold op.ExecuteStackProgram
      rw [hloop]
      simp [hp]
    · intro hp hs
      unfold op.ExecuteStackProgram
      rw [hloop]
      simp [hp, hs]
    · intro top hp hs
      unfold op.ExecuteStackProgram
      rw [hloop]
      simp [hp, hs]

/-- Witness for C6: the amended completion behaviour at concrete inputs —
an unknown opcode with the register flag clear errors, and the one-byte
program `[DW_OP_call_frame_cfa]` over CFA 24 yields address 24. -/
theorem executeStackProgram_completion_spec_witness :
    op.execLoop [0xff] ⟨[], [], false, ⟨fun _ => none, 24, 0, 0⟩⟩ =
      .error (.invalidInstruction 0xff) ∧
    op.ExecuteStackProgram ⟨fun _ => none, 24, 0, 0⟩ [op.DW_OP_call_frame_cfa] =
      .ok (24, []) := by
  constructor
  · exact executeStackProgram_completion_spec.1 ⟨[], [], false, ⟨fun _ => none, 24, 0, 0⟩⟩
      0xff [] rfl (by decide)
  · have hloop : op.execLoop [op.DW_OP_call_frame_cfa] ⟨[], [], false, ⟨fun _ => none, 24, 0, 0⟩⟩ =
        .ok ⟨[24], [], false, ⟨fun _ => none, 24, 0, 0⟩⟩ := by
      rw [op.execLoop_cons, if_neg (by simp), if_neg (by decide)]
      rw [show op.execOp op.DW_OP_call_frame_cfa [] ⟨[], [], false, ⟨fun _ => none, 24, 0, 0⟩⟩ =
          .ok (⟨[24], [], false, ⟨fun _ => none, 24, 0, 0⟩⟩, 0) from rfl]
      simp only [List.drop_zero]
      exact op.execLoop_nil _
    exact (executeStackProgram_completion_spec.2.2 ⟨fun _ => none, 24, 0, 0⟩
      [op.DW_OP_call_frame_cfa] _ hloop).2.2 24 rfl rfl

/-! ## Location reading and printing (src/regs.go:41-141, src/unnamed/part_006) -/

/-- A variable location: the DWARF expression instruction bytes (the Go
struct's `address`, `pieces`, `regs` fields are the parse cache, computed
functionally here). -/
structure Location where
  instructions : List Nat
deriving DecidableEq, Repr

/-- Errors of `Location.Read`. -/
inductive ReadErr where
  | noLocationInstructions
  | evalError (e : op.EvalErr)
  | peekFailed
deriving DecidableEq, Repr

/-- The piece-concatenation loop of `Location.Read` (src/regs.go:98-120):
register pieces render the register value as `SizeofPtr` little-endian
bytes (the 64-bit branch of the Go byte-order switch), memory pieces are
peeked at `piece.addr` for `piece.size` bytes.  Go returns the partial data
together with the error on a failing peek; the partial data is dropped
here. -/
def readPieces (st : ProcMem) (regs : op.DwarfRegisters) :
    List op.Piece → List Nat → Except ReadErr (List Nat)
  | [], acc => .ok acc
  | p :: rest, acc =>
    if p.isRegister then
      readPieces st regs rest (acc ++ putUint64LE (regs.Uint64Val p.regNum))
    else
      match peekData st (toUInt64 p.addr) p.size with
      | none => .error .peekFailed
      | some buf => readPieces st regs rest (acc ++ buf)

/-- `Location.Read` (src/regs.go:80-123, src/unnamed/part_006:51-94): empty
instructions are an error; the expression is evaluated; with no pieces, a
fixed `SizeofPtr` bytes are peeked at the resulting address; otherwise the
pieces are concatenated. -/
def Location.read (st : ProcMem) (regs : op.DwarfRegisters) (loc : Location) :
    Except ReadErr (List Nat) :=
  if loc.instructions = [] then .error .noLocationInstructions
  else
    match op.ExecuteStackProgram regs loc.instructions with
    | .error e => .error (.evalError e)
    | .ok (address, pieces) =>
      if pieces = [] then
        match peekData st (toUInt64 address) SizeofPtr with
        | none => .error .peekFailed
        | some data => .ok data
      else readPieces st regs pieces []

/-- The final truncation of the variable readers (src/data/reading.go:56-58,
src/data/variableentry.go:127-129): `if len(data) > size { data = data[:size] }`. -/
def truncToSize (size : Nat) (data : List Nat) : List Nat :=
  if size < data.length then data.take size else data

/-- A successful peek returns exactly the requested number of bytes. -/
theorem peekData_length (st : ProcMem) (a n : Nat) (l : List Nat)
    (h : peekData st a n = some l) : l.length = n := by
  unfold peekData at h
  split at h
  · simp only [Option.some.injEq] at h
    rw [← h]
    simp
  · simp at h

/-- Empty register snapshot used in concrete runs. -/
def noRegs : op.DwarfRegisters := ⟨fun _ => none, 0, 0, 0⟩

/-- The two-byte program `DW_OP_consts 16` evaluates to address 16 with no
pieces. -/
theorem evalConsts16 : op.ExecuteStackProgram noRegs [op.DW_OP_consts, 0x10] = .ok (16, []) := by
  have hloop : op.execLoop [op.DW_OP_consts, 0x10] ⟨[], [], false, noRegs⟩ =
      .ok ⟨[16], [], false, noRegs⟩ := by
    rw [op.execLoop_cons, if_neg (by simp), if_neg (by decide)]
    rw [show op.execOp op.DW_OP_consts [0x10] ⟨[], [], false, noRegs⟩ =
        .ok (⟨[16], [], false, noRegs⟩, 1) from rfl]
    exact op.execLoop_nil _
  unfold op.ExecuteStackProgram
  rw [hloop]
  rfl

/-! ## C8: what the variable reader fetches -/

/-- C8 counterexample: a variable of storage size 16 whose location
expression evaluates to the single address 16; `Location.Read` fetches
`SizeofPtr` = 8 bytes, not the variable's 16 bytes, and the readers'
truncation step cannot extend it, so the claim's "exactly size bytes" fails
for any size above the pointer size. -/
theorem location_read_size_counterexample :
    Location.read testMem noRegs ⟨[op.DW_OP_consts, 0x10]⟩ =
      .ok [17, 18, 19, 20, 21, 22, 23, 24] ∧
    (truncToSize 16 [17, 18, 19, 20, 21, 22, 23, 24]).length = 8 ∧
    (8 : Nat) ≠ 16 := by
  refine ⟨?_, by decide, by decide⟩
  unfold Location.read
  rw [if_neg (by decide), evalConsts16]
  rfl

/-- C8 (amended): for a no-piece result, `Location.Read` peeks a fixed
`SizeofPtr` bytes at the address (the variable's size enters only through
the later truncation, so the output has min(size, SizeofPtr) bytes); for a
piece list, the result is the in-order concatenation with register pieces
rendered as `SizeofPtr` little-endian bytes of the register value and
memory pieces peeked at `piece.addr` for `piece.size` bytes. -/
theorem location_read_fetch_spec (st : ProcMem) (regs : op.DwarfRegisters) (loc : Location)
    (hne : loc.instructions ≠ []) :
    (∀ address data, op.ExecuteStackProgram regs loc.instructions = .ok (address, []) →
      peekData st (toUInt64 address) SizeofPtr = some data →
      Location.read st regs loc = .ok data ∧ data.length = SizeofPtr) ∧
    (∀ address pieces, pieces ≠ [] →
      op.ExecuteStackProgram regs loc.instructions = .ok (address, pieces) →
      Location.read st regs loc = readPieces st regs pieces []) ∧
    (∀ (p : op.Piece) rest acc, p.isRegister = true →
      readPieces st regs (p :: rest) acc =
        readPieces st regs rest (acc ++ putUint64LE (regs.Uint64Val p.regNum))) ∧
    (∀ (p : op.Piece) rest acc buf, p.isRegister = false →
      peekData st (toUInt64 p.addr) p.size = some buf →
      readPieces st regs (p :: rest) acc = readPieces st regs rest (acc ++ buf)) ∧
    (∀ size data, size < List.length data → (truncToSize size data).length = size) ∧
    (∀ size data, List.length data ≤ size → truncToSize size data = data) := by
  refine ⟨?_, ?_, ?_, ?_, ?_, ?_⟩
  · intro address data heval hpeek
    refine ⟨?_, peekData_length st (toUInt64 address) SizeofPtr data hpeek⟩
    unfold Location.read
    rw [if_neg hne, heval]
    simp [hpeek]
  · intro address pieces hp heval
    unfold Location.read
    rw [if_neg hne, heval]
    simp [hp]
  · intro p rest acc hreg
    rw [readPieces, if_pos hreg]
  · intro p rest acc buf hreg hpeek
    rw [readPieces, if_neg (by simp [hreg]), hpeek]
  · intro size data hlt
    unfold truncToSize
    rw [if_pos hlt]
    simp [Nat.le_of_lt hlt]
  · intro size data hle
    unfold truncToSize
    rw [if_neg (by omega)]

/-- Witness for C8 at concrete inputs: address case on `testMem`. -/
theorem location_read_fetch_spec_witness :
    Location.read testMem noRegs ⟨[op.DW_OP_consts, 0x10]⟩ =
      .ok [17, 18, 19, 20, 21, 22, 23, 24] ∧
    List.length [17, 18, 19, 20, 21, 22, 23, 24] = SizeofPtr :=
  (location_read_fetch_spec testMem noRegs ⟨[op.DW_OP_consts, 0x10]⟩ (by decide)).1
    16 [17, 18, 19, 20, 21, 22, 23, 24] evalConsts16 rfl

/-! ## C10: Location.String on empty instructions -/

/-- Outcome of `Location.String`: a Go runtime panic escaping the function,
the literal hex address of a leading DW_OP_addr, or a pretty-printed
expression (any panic inside `PrettyPrint` is caught by the deferred
recover and also lands here, as the instruction dump string). -/
inductive StrResult where
  | panicked
  | addrString (addr : Nat)
  | prettyPrinted
deriving DecidableEq, Repr

/-- `Location.String` (src/regs.go:126-141, src/unnamed/part_006:97-112):
`loc.instructions[0]` is indexed BEFORE the deferred recover handler is
installed, so an empty instruction sequence panics and the panic escapes. -/
def locationString (loc : Location) : StrResult :=
  match loc.instructions with
  | [] => .panicked
  | b :: rest => if b = op.DW_OP_addr then .addrString (ReadAddress rest) else .prettyPrinted

/-- C10: pretty-printing a `Location` with an empty instruction sequence
panics (the index happens before the recover is installed), while `Read` on
the same location returns the "no location instructions" error — so
`String()` is not total where `Read` is. -/
theorem location_string_empty_panics :
    locationString ⟨[]⟩ = .panicked ∧
    ∀ (st : ProcMem) (regs : op.DwarfRegisters),
      Location.read st regs ⟨[]⟩ = .error .noLocationInstructions :=
  ⟨rfl, fun _ _ => rfl⟩

/-! ## C9: location list FindEntry (src/loclist.go:70-88) -/

/-- A `.debug_loc` entry: DWARF instructions valid for PCs in
`[lowpc, highpc)`. -/
structure LocEntry where
  lowpc : Nat
  highpc : Nat
  instructions : List Nat
deriving DecidableEq, Repr

/-- The parsed location list, Go `map[int64][]LocEntry`, modelled as the
association list of its pairs IN MAP ITERATION ORDER (Go map iteration
order is unspecified and randomized between runs); keys are unique. -/
abbrev LocList := List (Int × List LocEntry)

/-- Failure of `FindEntry`. -/
inductive FindErr where
  | noLoclistEntry
deriving DecidableEq, Repr

/-- `LocList.FindEntry` (src/loclist.go:70-88): exact key lookup; when the
key is missing, the fallback loop overwrites `entries` with ANY stored list
whose offset is ≤ the requested offset, keeping the LAST such list in
iteration order; the first entry of the chosen list whose range covers
`relpc` is returned, a missing one is an error. -/
def LocList.FindEntry (l : LocList) (offset : Int) (relpc : Nat) : Except FindErr LocEntry :=
  match
    (match l.lookup offset with
     | some es => es
     | none =>
       l.foldl (fun (acc : List LocEntry) (p : Int × List LocEntry) =>
         if offset ≥ p.1 then p.2 else acc) []).find?
      (fun e => decide (relpc ≥ e.lowpc) && decide (relpc < e.highpc))
  with
  | some e => .ok e
  | none => .error .noLoclistEntry

/-- C9 counterexample: in iteration order `[(20, A), (10, B)]` with offset
25 missing from the map, the fallback keeps B (the LAST qualifying list),
not A, the list with the greatest stored offset ≤ 25; the returned entry is
B's, which A does not contain — and a different iteration order of the same
map would return A's entry, so the selection is not a deterministic
function of the map at all. -/
theorem loclist_findEntry_counterexample :
    LocList.FindEntry [(20, [⟨0, 10, [1]⟩]), (10, [⟨0, 10, [2]⟩])] 25 5 = .ok ⟨0, 10, [2]⟩ ∧
    LocList.FindEntry [(10, [⟨0, 10, [2]⟩]), (20, [⟨0, 10, [1]⟩])] 25 5 = .ok ⟨0, 10, [1]⟩ ∧
    (10 : Int) < 20 ∧ (20 : Int) ≤ 25 ∧
    (⟨0, 10, [2]⟩ : LocEntry) ∉ [(⟨0, 10, [1]⟩ : LocEntry)] := by
  exact ⟨rfl, rfl, by decide, by decide, by decide⟩

/-- The fallback fold keeps the last qualifying list in iteration order:
it equals the first list found when scanning the iteration order in
reverse. -/
theorem findEntry_fold_last (l : LocList) (offset : Int) : ∀ acc : List LocEntry,
    l.foldl (fun (acc : List LocEntry) (p : Int × List LocEntry) =>
        if offset ≥ p.1 then p.2 else acc) acc =
      match l.reverse.find? (fun p => decide (offset ≥ p.1)) with
      | some p => p.2
      | none => acc := by
  induction l with
  | nil => intro acc; rfl
  | cons p l ih =>
    intro acc
    rw [List.foldl_cons, ih]
    rw [List.reverse_cons, List.find?_append]
    cases hf : l.reverse.find? (fun p => decide (offset ≥ p.1)) with
    | some q => rfl
    | none =>
      by_cases hq : offset ≥ p.1
      · simp [hq]
      · simp [hq]

/-- C9 (amended): with the key present its list is searched; with the key
missing the searched list is the LAST one in map-iteration order among
those with stored offset ≤ the requested offset (which is the list of
greatest such offset only when iteration happens to be ascending — Go map
iteration order is unspecified); within the chosen list the first entry
with `lowpc ≤ relpc < highpc` is returned, else a not-found error. -/
theorem loclist_findEntry_spec (l : LocList) (offset : Int) (relpc : Nat) :
    (∀ es, l.lookup offset = some es →
      LocList.FindEntry l offset relpc =
        match es.find? (fun e => decide (relpc ≥ e.lowpc) && decide (relpc < e.highpc)) with
        | some e => .ok e
        | none => .error .noLoclistEntry) ∧
    (∀ es, l.lookup offset = none →
      l.reverse.find? (fun p => decide (offset ≥ p.1)) = some es →
      LocList.FindEntry l offset relpc =
        match es.2.find? (fun e => decide (relpc ≥ e.lowpc) && decide (relpc < e.highpc)) with
        | some e => .ok e
        | none => .error .noLoclistEntry) ∧
    (l.lookup offset = none →
      l.reverse.find? (fun p => decide (offset ≥ p.1)) = none →
      LocList.FindEntry l offset relpc = .error .noLoclistEntry) ∧
    (∀ e, LocList.FindEntry l offset relpc = .ok e → e.lowpc ≤ relpc ∧ relpc < e.highpc) := by
  refine ⟨?_, ?_, ?_, ?_⟩
  · intro es hlk
    unfold LocList.FindEntry
    rw [hlk]
    rfl
  · intro es hlk hrev
    unfold LocList.FindEntry
    rw [hlk, findEntry_fold_last, hrev]
    rfl
  · intro hlk hrev
    unfold LocList.FindEntry
    rw [hlk, findEntry_fold_last, hrev]
    rfl
  · intro e h
    unfold LocList.FindEntry at h
    rcases hf : List.find? (fun e => decide (relpc ≥ e.lowpc) && decide (relpc < e.highpc))
        (match l.lookup offset with
         | some es => es
         | none => l.foldl (fun acc p => if offset ≥ p.1 then p.2 else acc) []) with _ | e1
    · rw [hf] at h; simp at h
    · rw [hf] at h
      simp only [Except.ok.injEq] at h
      subst h
      have := List.find?_some hf
      simp at this
      omega

/-- Witness for C9: the amended fallback and range selection at a concrete
map and PC. -/
theorem loclist_findEntry_spec_witness :
    LocList.FindEntry [(20, [⟨0, 10, [1]⟩]), (10, [⟨0, 10, [2]⟩])] 25 5 = .ok ⟨0, 10, [2]⟩ ∧
    (0 ≤ (5 : Nat) ∧ (5 : Nat) < 10) := by
  have h := (loclist_findEntry_spec [(20, [⟨0, 10, [1]⟩]), (10, [⟨0, 10, [2]⟩])] 25 5).2.1
    (10, [⟨0, 10, [2]⟩]) rfl rfl
  exact ⟨h, by decide⟩

/-! ## C7: default frame rules (src/arch/amd64.go:47-86) and their evaluation
(src/data/reading.go:248-307)

The `frame.DWRule` / `frame.FrameContext` types and the delve-derived
`DwarfRegisters.Reg` are absent from src (only their uses are); they are
modelled from the spec (§4.E rule tags, §4.D register snapshot). -/

namespace frame

/-- Rule tag of a DWRule (spec §4.E). -/
inductive RuleType where
  | undefined
  | sameVal
  | offset
  | valOffset
  | register
  | expression
  | valExpression
  | architectural
  | cfa
  | framePointer
deriving DecidableEq, Repr

/-- A CFI rule: tag plus register, offset and expression operands. -/
structure DWRule where
  rule : RuleType
  reg : Nat
  off : Int
  expression : List Nat
deriving DecidableEq, Repr

/-- The zero value of the Go DWRule struct: a missing map key reads as
RuleUndefined (the first enum constant). -/
def zeroDWRule : DWRule := ⟨.undefined, 0, 0, []⟩

/-- A frame context: the CFA rule, the per-register rules (a Go map with
zero-value default), and the return-address register. -/
structure FrameContext where
  cfa : DWRule
  regs : Nat → DWRule
  retAddrReg : Nat

/-- `arch.FixFrameContext` (src/arch/amd64.go:47-86): with no context, the
x86-64 defaults — CFA rule `RuleCFA(reg 6, +2*ptrsize)`, rip (retaddr reg
16) `RuleFramePointer(reg 16, -ptrsize)`, rbp (reg 6)
`RuleOffset(-2*ptrsize)`, rsp (reg 7) `RuleValOffset(0)`; and in either
case an Undefined rbp rule is rewritten to `RuleFramePointer(reg 6, 0)`. -/
def FixFrameContext (framectx : Option FrameContext) (_pc : Nat)
    (_regs : op.DwarfRegisters) : FrameContext :=
  let ctx : FrameContext :=
    match framectx with
    | none =>
      { retAddrReg := 16
        regs := fun r =>
          if r = 16 then ⟨.framePointer, 16, -(SizeofPtr : Int), []⟩
          else if r = 6 then ⟨.offset, 6, -2 * (SizeofPtr : Int), []⟩
          else if r = 7 then ⟨.valOffset, 7, 0, []⟩
          else zeroDWRule
        cfa := ⟨.cfa, 6, 2 * (SizeofPtr : Int), []⟩ }
    | some c => c
  if (ctx.regs 6).rule = .undefined then
    { ctx with regs := fun r => if r = 6 then ⟨.framePointer, 6, 0, []⟩ else ctx.regs r }
  else ctx

end frame

/-- Errors surfaced by `executeFrameRegRule`. -/
inductive RuleErr where
  | readFailed
  | evalError (e : op.EvalErr)
  | architecturalUnsupported
deriving DecidableEq, Repr

/-- Result of evaluating one frame rule: the Go function returns a register
pointer (nil = undefined) together with an error; `panicked` marks the
RuleSameVal nil-pointer dereference. -/
inductive RuleResult where
  | panicked
  | res (value : Option Nat) (err : Option RuleErr)
deriving DecidableEq, Repr

/-- `StackIterator.executeFrameRegRule` (src/data/reading.go:248-307) over
the memory model; `cfa` is the iterator's current CFA as an int64.  The
default match arm falls through to RuleUndefined (reading.go:250-254). -/
def executeFrameRegRule (st : ProcMem) (regs : op.DwarfRegisters)
    (rule : frame.DWRule) (cfa : Int) : RuleResult :=
  match rule.rule with
  | .undefined => .res none none
  | .sameVal =>
    match regs.Reg rule.reg with
    | none => .panicked
    | some v => .res (some v) none
  | .offset =>
    match readAddressAt st (toUInt64 (cfa + rule.off)) with
    | none => .res (some 0) (some .readFailed)
    | some v => .res (some v) none
  | .valOffset => .res (some (toUInt64 (cfa + rule.off))) none
  | .register => .res (regs.Reg rule.reg) none
  | .expression =>
    match op.ExecuteStackProgram regs rule.expression with
    | .error e => .res none (some (.evalError e))
    | .ok (v, _) =>
      match readAddressAt st (toUInt64 v) with
      | none => .res (some 0) (some .readFailed)
      | some w => .res (some w) none
  | .valExpression =>
    match op.ExecuteStackProgram regs rule.expression with
    | .error e => .res none (some (.evalError e))
    | .ok (v, _) => .res (some (toUInt64 v)) none
  | .architectural => .res none (some .architecturalUnsupported)
  | .cfa =>
    match regs.Reg rule.reg with
    | none => .res none none
    | some v => .res (some (toUInt64 (i64ofUInt64 v + rule.off))) none
  | .framePointer =>
    match regs.Reg rule.reg with
    | none => .res none none
    | some v =>
      if v ≤ toUInt64 cfa then
        match readAddressAt st v with
        | none => .res (some 0) (some .readFailed)
        | some w => .res (some w) none
      else .res (some v) none

/-- Registers for the C7 counterexample: rbp (DWARF reg 6) = 0x2000, all
other registers unset. -/
def regsA : op.DwarfRegisters := ⟨fun r => if r = 6 then some 0x2000 else none, 0, 0, 0⟩

/-- Memory for the C7 counterexample: bytes 0x11 in [0x2000, 0x2008), 0x22
elsewhere, everything mapped. -/
def stA : ProcMem :=
  { mem := fun a => if 0x2000 ≤ a ∧ a < 0x2008 then 0x11 else 0x22
    mapped := fun _ => true }

/-- C7 counterexample, with rbp = 0x2000 and CFA = rbp + 2·ptrsize = 0x2010:
the default rbp rule `RuleOffset(-2·ptrsize)` reads the word AT rbp (CFA −
2·ptrsize = 0x2000, bytes 0x11), not at rbp − 2·ptrsize = 0x1ff0 (bytes
0x22) as claimed; and the default rip rule is `RuleFramePointer` on
register 16, whose evaluation ignores the offset and yields undefined here
(register 16 unset), not the word at rbp − ptrsize. -/
theorem fixFrameContext_counterexample :
    executeFrameRegRule stA regsA ((frame.FixFrameContext none 0 regsA).cfa) 0 =
      .res (some 0x2010) none ∧
    executeFrameRegRule stA regsA ((frame.FixFrameContext none 0 regsA).regs 6) 0x2010 =
      .res (some 0x1111111111111111) none ∧
    readAddressAt stA (0x2000 - 2 * SizeofPtr) = some 0x2222222222222222 ∧
    (0x1111111111111111 : Nat) ≠ 0x2222222222222222 ∧
    executeFrameRegRule stA regsA ((frame.FixFrameContext none 0 regsA).regs 16) 0x2010 =
      .res none none ∧
    readAddressAt stA (0x2000 - SizeofPtr) = some 0x2222222222222222 := by
  refine ⟨by decide, by decide, by decide, by decide, by decide, by decide⟩

/-- A uint64 below 2^63 reinterprets as itself. -/
theorem i64ofUInt64_small (n : Nat) (h : n < 2 ^ 63) : i64ofUInt64 n = (n : Int) := by
  unfold i64ofUInt64
  have h64 : n < 2 ^ 64 := by
    have : (2 : Nat) ^ 63 ≤ 2 ^ 64 := by norm_num
    omega
  rw [Nat.mod_eq_of_lt h64]
  rw [if_pos h]
  omega

/-- A natural below 2^64 converts to uint64 as itself. -/
theorem toUInt64_ofNat (n : Nat) (h : n < 2 ^ 64) : toUInt64 (n : Int) = n := by
  unfold toUInt64
  have hmod : (n : Int) % 2 ^ 64 = n := by omega
  rw [hmod]
  simp

/-- C7 (amended): with no frame context the x86-64 defaults evaluate, under
`executeFrameRegRule`, to — CFA = rbp + 2·ptrsize; rsp = CFA (ValOffset 0);
rbp = the word read at CFA − 2·ptrsize, which is the word AT rbp (not at
rbp − 2·ptrsize); rip is RuleFramePointer on register 16, whose evaluation
ignores the stored −ptrsize offset: undefined when register 16 is unset,
else the current register-16 value, dereferenced when it is ≤ CFA; and an
existing context whose rbp rule is Undefined has it rewritten to
RuleFramePointer(reg 6, 0). -/
theorem fixFrameContext_default_rules_spec (st : ProcMem) (regs : op.DwarfRegisters)
    (pc : Nat) (rbp : Nat) (hrbp : regs.Reg 6 = some rbp)
    (hsmall : rbp + 2 * SizeofPtr < 2 ^ 63) :
    executeFrameRegRule st regs (frame.FixFrameContext none pc regs).cfa 0 =
      .res (some (rbp + 2 * SizeofPtr)) none ∧
    (∀ cfa : Int, executeFrameRegRule st regs ((frame.FixFrameContext none pc regs).regs 7) cfa =
      .res (some (toUInt64 cfa)) none) ∧
    (∀ w, readAddressAt st rbp = some w →
      executeFrameRegRule st regs ((frame.FixFrameContext none pc regs).regs 6)
        ((rbp + 2 * SizeofPtr : Nat) : Int) = .res (some w) none) ∧
    (regs.Reg 16 = none →
      ∀ cfa : Int, executeFrameRegRule st regs ((frame.FixFrameContext none pc regs).regs 16) cfa =
        .res none none) ∧
    (∀ v w (cfa : Int), regs.Reg 16 = some v → v ≤ toUInt64 cfa → readAddressAt st v = some w →
      executeFrameRegRule st regs ((frame.FixFrameContext none pc regs).regs 16) cfa =
        .res (some w) none) ∧
    (∀ v (cfa : Int), regs.Reg 16 = some v → ¬(v ≤ toUInt64 cfa) →
      executeFrameRegRule st regs ((frame.FixFrameContext none pc regs).regs 16) cfa =
        .res (some v) none) ∧
    (∀ c : frame.FrameContext, (c.regs 6).rule = .undefined →
      (frame.FixFrameContext (some c) pc regs).regs 6 =
        ⟨.framePointer, 6, 0, []⟩) := by
  have h63 : (2 : Nat) ^ 63 ≤ 2 ^ 64 := by norm_num
  refine ⟨?_, ?_, ?_, ?_, ?_, ?_, ?_⟩
  · rw [show (frame.FixFrameContext none pc regs).cfa =
        ⟨.cfa, 6, 2 * (SizeofPtr : Int), []⟩ from rfl]
    simp only [executeFrameRegRule]
    rw [hrbp]
    simp only []
    rw [i64ofUInt64_small rbp (by omega)]
    rw [show ((rbp : Int) + 2 * (SizeofPtr : Int)) = ((rbp + 2 * SizeofPtr : Nat) : Int) by
      push_cast; ring]
    rw [toUInt64_ofNat _ (by omega)]
  · intro cfa
    rw [show (frame.FixFrameContext none pc regs).regs 7 =
        ⟨.valOffset, 7, 0, []⟩ from rfl]
    simp only [executeFrameRegRule]
    rw [add_zero]
  · intro w hw
    rw [show (frame.FixFrameContext none pc regs).regs 6 =
        ⟨.offset, 6, -2 * (SizeofPtr : Int), []⟩ from rfl]
    simp only [executeFrameRegRule]
    rw [show ((rbp + 2 * SizeofPtr : Nat) : Int) + -2 * (SizeofPtr : Int) = (rbp : Int) by
      push_cast; ring]
    rw [toUInt64_ofNat _ (by omega), hw]
  · intro h16 cfa
    rw [show (frame.FixFrameContext none pc regs).regs 16 =
        ⟨.framePointer, 16, -(SizeofPtr : Int), []⟩ from rfl]
    simp only [executeFrameRegRule]
    rw [h16]
  · intro v w cfa h16 hle hw
    rw [show (frame.FixFrameContext none pc regs).regs 16 =
        ⟨.framePointer, 16, -(SizeofPtr : Int), []⟩ from rfl]
    simp only [executeFrameRegRule]
    rw [h16]
    simp only [if_pos hle]
    rw [hw]
  · intro v cfa h16 hgt
    rw [show (frame.FixFrameContext none pc regs).regs 16 =
        ⟨.framePointer, 16, -(SizeofPtr : Int), []⟩ from rfl]
    simp only [executeFrameRegRule]
    rw [h16]
    simp only [if_neg hgt]
  · intro c hc
    simp only [frame.FixFrameContext]
    rw [if_pos hc]
    simp

/-- Witness for C7 at `stA`/`regsA` (rbp = 0x2000, register 16 unset). -/
theorem fixFrameContext_default_rules_spec_witness :
    executeFrameRegRule stA regsA (frame.FixFrameContext none 0 regsA).cfa 0 =
      .res (some (0x2000 + 2 * SizeofPtr)) none ∧
    executeFrameRegRule stA regsA ((frame.FixFrameContext none 0 regsA).regs 6)
      ((0x2000 + 2 * SizeofPtr : Nat) : Int) = .res (some 0x1111111111111111) none ∧
    executeFrameRegRule stA regsA ((frame.FixFrameContext none 0 regsA).regs 16) 0x2010 =
      .res none none := by
  have h := fixFrameContext_default_rules_spec stA regsA 0 0x2000 (by decide)
    (by norm_num [SizeofPtr])
  exact ⟨h.1, h.2.2.1 0x1111111111111111 (by decide), h.2.2.2.1 (by decide) 0x2010⟩

end Raztracer
